import Mathlib

/-!
Verification development for the cdn-latency-tester repository.

Shallow embedding conventions:
- Go `float64` values are modelled as `ℚ` (exact rational arithmetic standing in
  for IEEE doubles; all float expressions in the source are short chains of
  `+ - * /`, so the rational value is the float value up to rounding tolerance).
- Go `int` / `int64` / `time.Duration` (nanoseconds) are modelled as `ℤ`,
  `ℕ` where the source value is a length/count.
- Fallible operations are modelled with `Option`.
- The network is modelled as an oracle: `measureRequest` receives a
  `NetOutcome` describing what the request-construction / round-trip did,
  and the scheduler receives a per-round, per-slot oracle plus an arbitrary
  goroutine completion order.
-/

/- ===============================
   config.go: Protocol / Endpoint
   =============================== -/

/-- Go `type Protocol int` (config.go). Modelled as the underlying integer. -/
abbrev Protocol := Int

def HTTP1 : Protocol := 0
def HTTP2 : Protocol := 1
def HTTP3 : Protocol := 2

/-- Go `func (p Protocol) String() string` (config.go): switch with default
branch returning "Unknown". -/
def protocolString (p : Protocol) : String :=
  if p == HTTP1 then "HTTP/1.1"
  else if p == HTTP2 then "HTTP/2"
  else if p == HTTP3 then "HTTP/3"
  else "Unknown"

/-- Go `func parseProtocol(s string) Protocol` (config.go): a switch over the
string; every string outside the listed HTTP/2 and HTTP/3 spellings falls into
the default branch and yields `HTTP1`. -/
def parseProtocol (s : String) : Protocol :=
  if s == "HTTP/3" || s == "http3" || s == "h3" then HTTP3
  else if s == "HTTP/2" || s == "http2" || s == "h2" then HTTP2
  else HTTP1

/-- Go `type Endpoint struct` (config.go). -/
structure Endpoint where
  ip : String
  protocol : Protocol
  name : String
deriving DecidableEq, Repr

/- ===============================
   model.go: RequestResult / Summary
   =============================== -/

/-- Go `type RequestResult struct` (model.go). `TTFB` is a `time.Duration`,
i.e. an `int64` count of nanoseconds, modelled as `ℤ`; the float64 fields
`XResponseTime` and `CDNLatency` are modelled as `ℚ`. -/
structure RequestResult where
  index : ℤ
  ttfb : ℤ
  xResponseTime : ℚ
  cdnLatency : ℚ
  statusCode : ℤ
  reused : Bool
  actualProto : String
  error : String
deriving DecidableEq, Repr

/-- Go `type Summary struct` (model.go). -/
structure Summary where
  endpointName : String
  protocol : String
  totalTests : ℕ
  successCount : ℕ
  failCount : ℕ
  hasCDN : Bool
  ttfbAvg : ℚ
  ttfbMin : ℚ
  ttfbMax : ℚ
  ttfbP50 : ℚ
  ttfbP90 : ℚ
  ttfbP95 : ℚ
  ttfbP99 : ℚ
  cdnLatencyAvg : ℚ
  cdnLatencyMin : ℚ
  cdnLatencyMax : ℚ
  cdnLatencyP50 : ℚ
  cdnLatencyP90 : ℚ
  cdnLatencyP95 : ℚ
  cdnLatencyP99 : ℚ
  xResponseTimeAvg : ℚ
deriving DecidableEq, Repr

/- ===============================
   report.go: percentile / calculateSummary
   =============================== -/

/-- Go's `int(f)` conversion from `float64`: truncation toward zero. -/
def goTrunc (q : ℚ) : ℤ :=
  if q < 0 then -Int.floor (-q) else Int.floor q

/-- Go `func percentile(values []float64, p float64) float64` (report.go
lines 16-26): on an empty slice return 0; otherwise sort a copy ascending
(`sort.Float64s`), compute `index := int(float64(len(sorted)-1) * p)` and
return `sorted[index]`. The out-of-range default 0 of `getD` is never used
for p in [0,1] (proved below); outside that range the Go code would panic. -/
def percentile (values : List ℚ) (p : ℚ) : ℚ :=
  if values.length = 0 then 0
  else
    let sorted := List.insertionSort (· ≤ ·) values
    let index := goTrunc (((sorted.length - 1 : ℤ) : ℚ) * p)
    (sorted[index.toNat]?).getD 0

/-- The loop at report.go lines 41-45 keeps a sample iff its `Error` field is
the empty string. -/
def successResults (results : List RequestResult) : List RequestResult :=
  results.filter (fun r => r.error == "")

/-- Go `float64(r.TTFB.Microseconds()) / 1000.0`: `Duration.Microseconds` is
integer division of the nanosecond count by 1000 (Go division truncates
toward zero, `Int.tdiv`), then float division by 1000. -/
def ttfbMsOf (ns : ℤ) : ℚ := ((ns.tdiv 1000 : ℤ) : ℚ) / 1000

/-- The min-accumulation loop of report.go (init with `values[0]`, then fold
`min` over the whole slice). Defined as 0 on `[]`; only applied to non-empty
lists by `calculateSummary`, matching the guarded Go code. -/
def listMin (xs : List ℚ) : ℚ :=
  match xs with
  | [] => 0
  | x :: _ => xs.foldl min x

/-- The max-accumulation loop of report.go, analogous to `listMin`. -/
def listMax (xs : List ℚ) : ℚ :=
  match xs with
  | [] => 0
  | x :: _ => xs.foldl max x

/-- Go `func calculateSummary(endpoint Endpoint, results []RequestResult) Summary`
(report.go lines 29-104). The single pass over `results` that builds
`ttfbValues`, `cdnLatencyValues`, `xResponseTimeSum`, `hasXResponseTime` and
the two counters is rendered with `filter`/`map`/`sum`/`any`/`countP` over the
same predicate `Error == ""`; the early `return summary` at
`len(ttfbValues) == 0` is the `if` below, returning the record whose
statistics fields still hold their zero values. -/
def calculateSummary (endpoint : Endpoint) (results : List RequestResult) : Summary :=
  let succ := successResults results
  let ttfbValues := succ.map (fun r => ttfbMsOf r.ttfb)
  let cdnLatencyValues := succ.map (fun r => r.cdnLatency)
  let xResponseTimeSum := (succ.map (fun r => r.xResponseTime)).sum
  let hasXResponseTime := succ.any (fun r => decide (0 < r.xResponseTime))
  let base : Summary := {
    endpointName := endpoint.name
    protocol := protocolString endpoint.protocol
    totalTests := results.length
    successCount := results.countP (fun r => r.error == "")
    failCount := results.countP (fun r => !(r.error == ""))
    hasCDN := false
    ttfbAvg := 0, ttfbMin := 0, ttfbMax := 0
    ttfbP50 := 0, ttfbP90 := 0, ttfbP95 := 0, ttfbP99 := 0
    cdnLatencyAvg := 0, cdnLatencyMin := 0, cdnLatencyMax := 0
    cdnLatencyP50 := 0, cdnLatencyP90 := 0, cdnLatencyP95 := 0, cdnLatencyP99 := 0
    xResponseTimeAvg := 0 }
  if ttfbValues.length = 0 then base
  else
    { base with
      ttfbMin := listMin ttfbValues
      ttfbMax := listMax ttfbValues
      ttfbAvg := ttfbValues.sum / (ttfbValues.length : ℚ)
      ttfbP50 := percentile ttfbValues (50 / 100)
      ttfbP90 := percentile ttfbValues (90 / 100)
      ttfbP95 := percentile ttfbValues (95 / 100)
      ttfbP99 := percentile ttfbValues (99 / 100)
      cdnLatencyMin := listMin cdnLatencyValues
      cdnLatencyMax := listMax cdnLatencyValues
      cdnLatencyAvg := cdnLatencyValues.sum / (cdnLatencyValues.length : ℚ)
      cdnLatencyP50 := percentile cdnLatencyValues (50 / 100)
      cdnLatencyP90 := percentile cdnLatencyValues (90 / 100)
      cdnLatencyP95 := percentile cdnLatencyValues (95 / 100)
      cdnLatencyP99 := percentile cdnLatencyValues (99 / 100)
      xResponseTimeAvg := xResponseTimeSum / (ttfbValues.length : ℚ)
      hasCDN := hasXResponseTime }

/-- The CDN columns of `printSummaryTable` (report.go lines 158-171): every
CDN-latency cell and the origin-time mean cell renders as the formatted value
only under `s.HasCDN`, and as the absence marker "-" otherwise. The cell is
modelled as `some value` (to be formatted) versus `none` (rendered "-"). -/
def summaryCDNCells (s : Summary) : List (Option ℚ) :=
  if s.hasCDN then
    [some s.cdnLatencyAvg, some s.cdnLatencyP50, some s.cdnLatencyP90,
      some s.cdnLatencyP99, some s.xResponseTimeAvg]
  else [none, none, none, none, none]

/- ===============================
   client.go: header parsing and measureRequest
   =============================== -/

def isDigitChar (c : Char) : Bool := '0' ≤ c && c ≤ '9'

def digitVal (c : Char) : ℕ := c.toNat - '0'.toNat

def natOfDigits (cs : List Char) : ℕ :=
  cs.foldl (fun acc c => 10 * acc + digitVal c) 0

/-- Models `strconv.ParseFloat(s, 64)` on plain decimal literals: an optional
sign, digits, an optional fractional part, at least one digit overall, and
nothing else. This covers the header format in scope ("a decimal seconds
figure"); exponents, hex floats, infinities and digit-group underscores,
which Go also accepts, never appear in that format and are parsed as `none`
here. The result is the exact rational value the decimal denotes. -/
def parseDecimal (s : String) : Option ℚ :=
  let cs := s.data
  let sign : ℚ := if cs.head? == some '-' then -1 else 1
  let body := if cs.head? == some '-' || cs.head? == some '+' then cs.tail else cs
  let digitsPart := body.takeWhile isDigitChar
  let after := body.dropWhile isDigitChar
  if after.isEmpty then
    if digitsPart.isEmpty then none
    else some (sign * (natOfDigits digitsPart : ℚ))
  else if after.head? == some '.' && (after.tail.all isDigitChar) &&
      !(digitsPart.isEmpty && after.tail.isEmpty) then
    some (sign * ((natOfDigits digitsPart : ℚ) +
      (natOfDigits after.tail : ℚ) / (10 ^ after.tail.length : ℚ)))
  else none

/-- Go `strings.TrimSuffix(s, "s")`: drop one trailing "s" when present,
stated on the character list of the string. -/
def trimSuffixS (s : String) : String :=
  match s.data.reverse with
  | 's' :: rest => ⟨rest.reverse⟩
  | _ => s

def isSpaceChar (c : Char) : Bool :=
  c == ' ' || c == '\t' || c == '\n' || c == '\r'

/-- Go `strings.TrimSpace`: drop leading and trailing whitespace. -/
def trimSpace (s : String) : String :=
  ⟨((s.data.dropWhile isSpaceChar).reverse.dropWhile isSpaceChar).reverse⟩

/-- The header-extraction block of `measureRequest` (client.go lines 178-188):
`resp.Header.Get` yields "" for an absent header (Go cannot distinguish absent
from empty there); for a non-empty value the "s" suffix is trimmed, the string
trimmed of spaces and parsed; on success `XResponseTime` becomes seconds x 1000,
on failure (or absence) the field keeps its zero value. -/
def extractXResponseTime (hdr : String) : ℚ :=
  if hdr == "" then 0
  else
    match parseDecimal (trimSpace (trimSuffixS hdr)) with
    | some val => val * 1000
    | none => 0

/-- The outcome of the fallible steps of one probe, supplied by the network:
`http.NewRequest` can fail, `client.Do` can fail, or the exchange succeeds
with a TTFB (nanoseconds, as captured by the `GotFirstResponseByte` trace
hook), a status code, the connection-reuse flag, the negotiated protocol
string and the raw `x-source-response-time` header value ("" when absent). -/
inductive NetOutcome where
  | newRequestError (msg : String)
  | doError (msg : String)
  | success (ttfbNs : ℤ) (statusCode : ℤ) (reused : Bool)
      (proto : String) (xHeader : String)
deriving DecidableEq, Repr

/-- Go `func measureRequest(client *http.Client, url string, domain string) RequestResult`
(client.go lines 132-195), as a function of the network outcome. On either
error path the function returns early: only `Error` has been assigned, every
other field still holds its zero value. On success `TTFB`, `StatusCode`,
`Reused`, `ActualProto` are recorded, the origin header is parsed, and
`CDNLatency = TTFB(ms) - XResponseTime` is computed unconditionally. -/
def measureRequest (outcome : NetOutcome) : RequestResult :=
  match outcome with
  | .newRequestError msg =>
      { index := 0, ttfb := 0, xResponseTime := 0, cdnLatency := 0,
        statusCode := 0, reused := false, actualProto := "",
        error := "创建请求失败: " ++ msg }
  | .doError msg =>
      { index := 0, ttfb := 0, xResponseTime := 0, cdnLatency := 0,
        statusCode := 0, reused := false, actualProto := "",
        error := "请求失败: " ++ msg }
  | .success ttfbNs statusCode reused proto xHeader =>
      let x := extractXResponseTime xHeader
      { index := 0, ttfb := ttfbNs, xResponseTime := x,
        cdnLatency := ttfbMsOf ttfbNs - x, statusCode := statusCode,
        reused := reused, actualProto := proto, error := "" }

/- ===============================
   client.go: transport client construction
   =============================== -/

/-- The observable configuration of the `*http.Client` values built by
`createHTTP1Client` / `createHTTP2Client` / `createHTTP3Client` (client.go):
the IP every dial is forced to, the TLS ALPN list, the HTTP/2 toggle, the
certificate-verification bypass flag and the timeout (nanoseconds). For the
HTTP/3 client the ALPN list is left empty here: the http3 transport pins it
internally rather than through `NextProtos` in this code. -/
structure ClientModel where
  forcedIP : String
  nextProtos : List String
  forceAttemptHTTP2 : Bool
  insecureSkipVerify : Bool
  timeout : ℤ
deriving DecidableEq, Repr

/-- Go `func createHTTP1Client(ip string, timeout time.Duration) *http.Client`
(client.go lines 23-55): no validation of `ip`, no error return. -/
def createHTTP1Client (ip : String) (timeout : ℤ) : ClientModel :=
  { forcedIP := ip, nextProtos := ["http/1.1"], forceAttemptHTTP2 := false,
    insecureSkipVerify := false, timeout := timeout }

/-- Go `func createHTTP2Client` (client.go lines 58-90). -/
def createHTTP2Client (ip : String) (timeout : ℤ) : ClientModel :=
  { forcedIP := ip, nextProtos := ["h2"], forceAttemptHTTP2 := true,
    insecureSkipVerify := false, timeout := timeout }

/-- Go `func createHTTP3Client` (client.go lines 93-125). -/
def createHTTP3Client (ip : String) (timeout : ℤ) : ClientModel :=
  { forcedIP := ip, nextProtos := [], forceAttemptHTTP2 := false,
    insecureSkipVerify := false, timeout := timeout }

/-- The port-extraction step shared by every dial function: `net.SplitHostPort`
succeeds on `host:port` shapes (the port is what follows the last colon) and
the code substitutes "443" when it errors (no colon at all). -/
def splitPortOr443 (addr : String) : String :=
  if addr.data.contains ':' then
    ⟨(addr.data.reverse.takeWhile (fun c => !(c == ':'))).reverse⟩
  else "443"

/-- Go `net.JoinHostPort`. -/
def joinHostPort (host port : String) : String :=
  if host.data.contains ':' then "[" ++ host ++ "]:" ++ port
  else host ++ ":" ++ port

/-- The address actually dialed by each client's dial override: the requested
address contributes only its port; the host part is always replaced by the
forced IP (`net.JoinHostPort(ip, port)` in all three dial functions). -/
def dialAddr (c : ClientModel) (addr : String) : String :=
  joinHostPort c.forcedIP (splitPortOr443 addr)

/-- The per-endpoint client-selection switch of `main` (main.go lines 118-132):
the three protocol constants build a client; any other `Protocol` value hits
the default branch, which logs an error and skips the endpoint (`none`). -/
def buildClient (p : Protocol) (ip : String) (timeout : ℤ) : Option ClientModel :=
  if p == HTTP1 then some (createHTTP1Client ip timeout)
  else if p == HTTP2 then some (createHTTP2Client ip timeout)
  else if p == HTTP3 then some (createHTTP3Client ip timeout)
  else none

/- ===============================
   main.go: round scheduler
   =============================== -/

/-- Go `type RequestTask struct` (main.go), minus the `*http.Client` handle,
whose behaviour lives in the measurement oracle. -/
structure RequestTask where
  endpoint : Endpoint
  url : String
  domain : String
  index : ℤ
deriving DecidableEq, Repr

/-- Go `type EndpointResult struct` (main.go). -/
structure EndpointResult where
  endpoint : Endpoint
  result : RequestResult
deriving DecidableEq, Repr

def defaultRequestResult : RequestResult :=
  { index := 0, ttfb := 0, xResponseTime := 0, cdnLatency := 0,
    statusCode := 0, reused := false, actualProto := "", error := "" }

def defaultEndpointResult : EndpointResult :=
  { endpoint := { ip := "", protocol := 0, name := "" },
    result := defaultRequestResult }

/-- Go `func runParallelRound(tasks []RequestTask, ...) []EndpointResult`
(main.go lines 30-49): `results := make([]EndpointResult, len(tasks))` is the
zero-valued slice; each goroutine `idx` runs the probe for task `idx`,
overwrites the result's `Index` with `t.Index`, and stores into `results[idx]`
— its own slot, whatever order the goroutines finish in. `measure idx` is the
network outcome of slot idx's probe in this round, and `order` is the
completion order of the goroutines (any covering order may occur; the barrier
`wg.Wait` returns once every index has run). -/
def roundStep (tasks : List RequestTask) (measure : ℕ → RequestResult)
    (results : List EndpointResult) (idx : ℕ) : List EndpointResult :=
  match tasks[idx]? with
  | some t => results.set idx
      { endpoint := t.endpoint, result := { measure idx with index := t.index } }
  | none => results

def runParallelRound (tasks : List RequestTask) (measure : ℕ → RequestResult)
    (order : List ℕ) : List EndpointResult :=
  order.foldl (roundStep tasks measure)
    (List.replicate tasks.length defaultEndpointResult)

/-- The value goroutine `idx` stores into its slot. -/
def roundWrite (tasks : List RequestTask) (measure : ℕ → RequestResult)
    (idx : ℕ) : EndpointResult :=
  match tasks[idx]? with
  | some t => { endpoint := t.endpoint, result := { measure idx with index := t.index } }
  | none => defaultEndpointResult

/-- The key of the `endpointResults` map in `main`: `Name + "|" + Protocol.String()`. -/
def keyOf (e : Endpoint) : String := e.name ++ "|" ++ protocolString e.protocol

/-- The task list `main` builds for one round (main.go lines 143-152): one task
per constructed client, in client order, each carrying `Index: round`. -/
def mkTasks (clients : List Endpoint) (url domain : String) (round : ℤ) :
    List RequestTask :=
  clients.map (fun e => { endpoint := e, url := url, domain := domain, index := round })

/-- The per-endpoint sample sequence `endpointResults[k]` after the round loop
of `main` (lines 141-167): for `round = 1 .. nRounds` the round's results are
appended, each result landing in the list keyed by its endpoint; for a fixed
key this appends, in slice order, exactly the results whose endpoint has that
key. `measure r idx` is the outcome of slot `idx`'s probe in round `r` and
`orders r` the goroutine completion order of round `r`. -/
def campaign (clients : List Endpoint) (url domain : String) (nRounds : ℕ)
    (measure : ℕ → ℕ → RequestResult) (orders : ℕ → List ℕ) (k : String) :
    List RequestResult :=
  ((List.range nRounds).map (fun (r : ℕ) =>
    ((runParallelRound (mkTasks clients url domain ((r : ℤ) + 1))
        (measure (r + 1)) (orders (r + 1))).filter
      (fun er => keyOf er.endpoint == k)).map (fun er => er.result))).flatten

/- ===============================
   report.go: percentile with explicit slice store (frame property)
   =============================== -/

/-- A store of float64 slices, addressed by slice identity: Go slices are
references to backing arrays, so mutation through one reference is visible
through aliases of the same array but not through other arrays. -/
def Heap : Type := ℕ → List ℚ

def heapUpdate (h : Heap) (i : ℕ) (v : List ℚ) : Heap :=
  fun j => if j = i then v else h j

/-- `percentile` again (report.go lines 16-26), with its slice operations made
explicit against the store: the caller's slice lives at `a`; `make` allocates
the fresh array `fresh`; `copy(sorted, values)` writes `values`' contents into
`fresh`; `sort.Float64s(sorted)` sorts in place at `fresh`; the indexing reads
`fresh`. Returns the result together with the final store. -/
def percentileProg (h : Heap) (a fresh : ℕ) (p : ℚ) : ℚ × Heap :=
  if (h a).length = 0 then (0, h)
  else
    let h1 := heapUpdate h fresh (h a)
    let h2 := heapUpdate h1 fresh (List.insertionSort (· ≤ ·) (h1 fresh))
    let index := goTrunc ((((h2 fresh).length - 1 : ℤ) : ℚ) * p)
    (((h2 fresh)[index.toNat]?).getD 0, h2)



/- ===============================
   Theorems
   =============================== -/

theorem goTrunc_of_nonneg (q : ℚ) (h : 0 ≤ q) : goTrunc q = Int.floor q := by
  unfold goTrunc
  rw [if_neg (not_lt.mpr h)]

theorem percentile_index_lt (values : List ℚ) (p : ℚ) (hne : values ≠ [])
    (hp0 : 0 ≤ p) (hp1 : p ≤ 1) :
    (Int.floor (((values.length - 1 : ℤ) : ℚ) * p)).toNat < values.length := by
  have hlen : 0 < values.length := List.length_pos.mpr hne
  have hc : (0 : ℚ) ≤ ((values.length - 1 : ℤ) : ℚ) := by
    have h1 : (0 : ℤ) ≤ (values.length : ℤ) - 1 := by omega
    exact_mod_cast h1
  have hle : ((values.length - 1 : ℤ) : ℚ) * p ≤ ((values.length - 1 : ℤ) : ℚ) :=
    mul_le_of_le_one_right hc hp1
  have hfl : Int.floor (((values.length - 1 : ℤ) : ℚ) * p) ≤ (values.length : ℤ) - 1 := by
    calc Int.floor (((values.length - 1 : ℤ) : ℚ) * p)
        ≤ Int.floor ((((values.length : ℤ) - 1 : ℤ) : ℚ)) := Int.floor_le_floor hle
      _ = (values.length : ℤ) - 1 := Int.floor_intCast _
  omega

theorem percentile_eq_get (values : List ℚ) (p : ℚ) (hne : values ≠ [])
    (hp0 : 0 ≤ p) (hp1 : p ≤ 1) :
    ∃ hidx : (Int.floor (((values.length - 1 : ℤ) : ℚ) * p)).toNat <
        (List.insertionSort (· ≤ ·) values).length,
      percentile values p = (List.insertionSort (· ≤ ·) values).get
        ⟨(Int.floor (((values.length - 1 : ℤ) : ℚ) * p)).toNat, hidx⟩ := by
  have hlt := percentile_index_lt values p hne hp0 hp1
  have hs : (List.insertionSort (· ≤ ·) values).length = values.length :=
    List.length_insertionSort _ _
  have hnz : ¬ values.length = 0 := by
    have := List.length_pos.mpr hne
    omega
  have hc : (0 : ℚ) ≤ ((values.length - 1 : ℤ) : ℚ) := by
    have h1 : (0 : ℤ) ≤ (values.length : ℤ) - 1 := by
      have := List.length_pos.mpr hne
      omega
    exact_mod_cast h1
  refine ⟨by rw [hs]; exact hlt, ?_⟩
  simp only [percentile, hnz, if_false]
  have hidxeq : (goTrunc ((((List.insertionSort (· ≤ ·) values).length - 1 : ℤ) : ℚ) * p)).toNat
      = (Int.floor (((values.length - 1 : ℤ) : ℚ) * p)).toNat := by
    rw [hs, goTrunc_of_nonneg _ (mul_nonneg hc hp0)]
  rw [hidxeq]
  rw [List.getElem?_eq_getElem (by rw [hs]; exact hlt)]
  rw [Option.getD_some, List.get_eq_getElem]

theorem percentile_zero_is_min (values : List ℚ) (hne : values ≠ []) :
    percentile values 0 ∈ values ∧ ∀ x ∈ values, percentile values 0 ≤ x := by
  obtain ⟨hidx, heq⟩ := percentile_eq_get values 0 hne le_rfl zero_le_one
  have hzero : (Int.floor (((values.length - 1 : ℤ) : ℚ) * 0)).toNat = 0 := by
    norm_num
  simp only [hzero] at heq
  constructor
  · rw [heq]
    exact (List.perm_insertionSort _ values).mem_iff.mp (List.get_mem _ _ _)
  · intro x hx
    have hx2 : x ∈ List.insertionSort (· ≤ ·) values :=
      (List.perm_insertionSort _ values).mem_iff.mpr hx
    obtain ⟨k, hk⟩ := List.mem_iff_get.mp hx2
    rw [heq, ← hk]
    exact List.Sorted.rel_get_of_le (List.sorted_insertionSort _ values)
      (by simp [Fin.le_def])

theorem percentile_one_is_max (values : List ℚ) (hne : values ≠ []) :
    percentile values 1 ∈ values ∧ ∀ x ∈ values, x ≤ percentile values 1 := by
  obtain ⟨hidx, heq⟩ := percentile_eq_get values 1 hne zero_le_one le_rfl
  have hone : (Int.floor (((values.length - 1 : ℤ) : ℚ) * 1)).toNat = values.length - 1 := by
    rw [mul_one, Int.floor_intCast]
    omega
  simp only [hone] at heq
  constructor
  · rw [heq]
    exact (List.perm_insertionSort _ values).mem_iff.mp (List.get_mem _ _ _)
  · intro x hx
    have hx2 : x ∈ List.insertionSort (· ≤ ·) values :=
      (List.perm_insertionSort _ values).mem_iff.mpr hx
    obtain ⟨k, hk⟩ := List.mem_iff_get.mp hx2
    rw [heq, ← hk]
    refine List.Sorted.rel_get_of_le (List.sorted_insertionSort _ values) ?_
    have hk2 : (k : ℕ) < (List.insertionSort (· ≤ ·) values).length := k.isLt
    have hs : (List.insertionSort (· ≤ ·) values).length = values.length :=
      List.length_insertionSort _ _
    simp only [Fin.le_def]
    omega

/-- C1: for a non-empty value list and a percentile fraction p in [0,1],
`percentile` returns the ascending-sorted values at zero-based index
floor((count-1) * p); with p = 0 this is the minimum and with p = 1 the
maximum of the value set. -/
theorem percentile_nearest_rank_min_max (values : List ℚ) (p : ℚ)
    (hne : values ≠ []) (hp0 : 0 ≤ p) (hp1 : p ≤ 1) :
    (∃ hidx : (Int.floor (((values.length - 1 : ℤ) : ℚ) * p)).toNat <
        (List.insertionSort (· ≤ ·) values).length,
      percentile values p = (List.insertionSort (· ≤ ·) values).get
        ⟨(Int.floor (((values.length - 1 : ℤ) : ℚ) * p)).toNat, hidx⟩) ∧
    (percentile values 0 ∈ values ∧ ∀ x ∈ values, percentile values 0 ≤ x) ∧
    (percentile values 1 ∈ values ∧ ∀ x ∈ values, x ≤ percentile values 1) :=
  ⟨percentile_eq_get values p hne hp0 hp1, percentile_zero_is_min values hne,
    percentile_one_is_max values hne⟩

/-- Witness for C1 at values [3, 1, 2] and p = 1/2. -/
theorem percentile_nearest_rank_min_max_witness :
    percentile [3, 1, 2] (1/2) = 2 ∧ percentile [3, 1, 2] 0 ∈ [(3 : ℚ), 1, 2] ∧
      percentile [3, 1, 2] 0 = 1 ∧ percentile [3, 1, 2] 1 = 3 := by
  obtain ⟨⟨hidx, hval⟩, ⟨hmem0, hmin⟩, ⟨hmem1, hmax⟩⟩ :=
    percentile_nearest_rank_min_max [3, 1, 2] (1/2) (by decide) (by norm_num) (by norm_num)
  refine ⟨?_, hmem0, ?_, ?_⟩
  · norm_num [percentile, goTrunc, List.insertionSort, List.orderedInsert] <;> decide
  · norm_num [percentile, goTrunc, List.insertionSort, List.orderedInsert] <;> decide
  · norm_num [percentile, goTrunc, List.insertionSort, List.orderedInsert] <;> decide

/-- C4: when every sample failed, the summary keeps every numeric statistic at
zero (the early return fires before any division), the counters are still
populated, and `percentile` on an empty value list returns 0 instead of
failing. -/
theorem calculateSummary_no_success_zero (e : Endpoint) (results : List RequestResult)
    (p : ℚ) (hall : ∀ r ∈ results, r.error ≠ "") :
    (calculateSummary e results).totalTests = results.length ∧
    (calculateSummary e results).successCount = 0 ∧
    (calculateSummary e results).failCount = results.length ∧
    (calculateSummary e results).hasCDN = false ∧
    (calculateSummary e results).ttfbAvg = 0 ∧
    (calculateSummary e results).ttfbMin = 0 ∧
    (calculateSummary e results).ttfbMax = 0 ∧
    (calculateSummary e results).ttfbP50 = 0 ∧
    (calculateSummary e results).ttfbP90 = 0 ∧
    (calculateSummary e results).ttfbP95 = 0 ∧
    (calculateSummary e results).ttfbP99 = 0 ∧
    (calculateSummary e results).cdnLatencyAvg = 0 ∧
    (calculateSummary e results).cdnLatencyMin = 0 ∧
    (calculateSummary e results).cdnLatencyMax = 0 ∧
    (calculateSummary e results).cdnLatencyP50 = 0 ∧
    (calculateSummary e results).cdnLatencyP90 = 0 ∧
    (calculateSummary e results).cdnLatencyP95 = 0 ∧
    (calculateSummary e results).cdnLatencyP99 = 0 ∧
    (calculateSummary e results).xResponseTimeAvg = 0 ∧
    percentile [] p = 0 := by
  have hfilter : successResults results = [] := by
    rw [successResults, List.filter_eq_nil_iff]
    intro r hr
    simpa using hall r hr
  have hcount : results.countP (fun r => r.error == "") = 0 := by
    rw [List.countP_eq_zero]
    intro r hr
    simpa using hall r hr
  have hcount2 : results.countP (fun r => !(r.error == "")) = results.length := by
    rw [List.countP_eq_length]
    intro r hr
    simpa using hall r hr
  simp only [calculateSummary, hfilter, hcount, hcount2, List.map_nil, List.length_nil,
    if_pos rfl]
  refine ⟨rfl, rfl, rfl, rfl, rfl, rfl, rfl, rfl, rfl, rfl, rfl, rfl, rfl, rfl, rfl,
    rfl, rfl, rfl, rfl, ?_⟩
  rfl

/-- Witness for C4 on a one-element list whose sample carries an error. -/
theorem calculateSummary_no_success_zero_witness :
    (calculateSummary { ip := "1.1.1.1", protocol := 0, name := "A" }
      [{ index := 1, ttfb := 0, xResponseTime := 0, cdnLatency := 0, statusCode := 0,
         reused := false, actualProto := "", error := "请求失败: timeout" }]).failCount = 1 ∧
    percentile [] (1/2) = 0 := by
  have h := calculateSummary_no_success_zero
    { ip := "1.1.1.1", protocol := 0, name := "A" }
    [{ index := 1, ttfb := 0, xResponseTime := 0, cdnLatency := 0, statusCode := 0,
       reused := false, actualProto := "", error := "请求失败: timeout" }]
    (1/2) (by decide)
  exact ⟨h.2.2.1, h.2.2.2.2.2.2.2.2.2.2.2.2.2.2.2.2.2.2.2⟩

/-- C5: the summary's has-CDN-data flag is true iff some successful sample
recorded a positive origin-processing-time, and when no such sample exists
every CDN-latency cell and the origin-time mean cell of the summary table
renders as the absence marker, not as a number. -/
theorem calculateSummary_hasCDN_val (e : Endpoint) (results : List RequestResult) :
    (calculateSummary e results).hasCDN =
      (successResults results).any (fun r => decide (0 < r.xResponseTime)) := by
  simp only [calculateSummary]
  rw [apply_ite Summary.hasCDN]
  split
  · next hc =>
      have hemp : successResults results = [] := by
        simpa [List.length_eq_zero] using hc
      rw [hemp]
      rfl
  · rfl

theorem calculateSummary_hasCDN_iff (e : Endpoint) (results : List RequestResult) :
    ((calculateSummary e results).hasCDN = true ↔
      ∃ r ∈ results, r.error = "" ∧ 0 < r.xResponseTime) ∧
    ((¬ ∃ r ∈ results, r.error = "" ∧ 0 < r.xResponseTime) →
      summaryCDNCells (calculateSummary e results) = [none, none, none, none, none]) := by
  have hmain : (calculateSummary e results).hasCDN = true ↔
      ∃ r ∈ results, r.error = "" ∧ 0 < r.xResponseTime := by
    rw [calculateSummary_hasCDN_val, List.any_eq_true]
    constructor
    · rintro ⟨r, hr, hp⟩
      rw [successResults, List.mem_filter] at hr
      exact ⟨r, hr.1, by simpa using hr.2, by simpa using hp⟩
    · rintro ⟨r, hr, herr, hpos⟩
      refine ⟨r, ?_, by simpa using hpos⟩
      rw [successResults, List.mem_filter]
      exact ⟨hr, by simpa using herr⟩
  refine ⟨hmain, fun hno => ?_⟩
  have hfalse : (calculateSummary e results).hasCDN = false := by
    rcases Bool.eq_false_or_eq_true (calculateSummary e results).hasCDN with h | h
    · exact absurd (hmain.mp h) hno
    · exact h
  rw [summaryCDNCells, hfalse]
  rfl

/-- Witness for C5: a successful sample with positive origin time turns the
flag on. -/
theorem calculateSummary_hasCDN_iff_witness :
    (calculateSummary { ip := "1.1.1.1", protocol := 0, name := "A" }
      [{ index := 1, ttfb := 100000000, xResponseTime := 45, cdnLatency := 55,
         statusCode := 200, reused := false, actualProto := "HTTP/1.1",
         error := "" }]).hasCDN = true :=
  (calculateSummary_hasCDN_iff { ip := "1.1.1.1", protocol := 0, name := "A" }
    [{ index := 1, ttfb := 100000000, xResponseTime := 45, cdnLatency := 55,
       statusCode := 200, reused := false, actualProto := "HTTP/1.1",
       error := "" }]).1.mpr
    ⟨{ index := 1, ttfb := 100000000, xResponseTime := 45, cdnLatency := 55,
       statusCode := 200, reused := false, actualProto := "HTTP/1.1", error := "" },
      by decide, by decide, by decide⟩

/-- C2: on a successful probe whose origin header is present and parseable to
v seconds, the sample records XResponseTime = v * 1000 (ms) and
CDNLatency = TTFB(ms) - XResponseTime, exactly. -/
theorem measureRequest_cdn_decomposition (ttfbNs statusCode : ℤ) (reused : Bool)
    (proto hdr : String) (v : ℚ)
    (hne : hdr ≠ "") (hp : parseDecimal (trimSpace (trimSuffixS hdr)) = some v) :
    (measureRequest (.success ttfbNs statusCode reused proto hdr)).xResponseTime = v * 1000 ∧
    (measureRequest (.success ttfbNs statusCode reused proto hdr)).cdnLatency =
      ttfbMsOf ttfbNs - v * 1000 ∧
    (measureRequest (.success ttfbNs statusCode reused proto hdr)).error = "" := by
  have hx : extractXResponseTime hdr = v * 1000 := by
    unfold extractXResponseTime
    rw [if_neg (by simpa using hne), hp]
  simp only [measureRequest]
  refine ⟨hx, by rw [hx], by trivial⟩

/-- Witness for C2 with header "0.045s" and a 100ms TTFB. -/
theorem measureRequest_cdn_decomposition_witness :
    parseDecimal (trimSpace (trimSuffixS "0.045s")) = some (9/200) ∧
    (measureRequest (.success 100000000 200 false "HTTP/2.0" "0.045s")).cdnLatency = 55 := by
  have hp : parseDecimal (trimSpace (trimSuffixS "0.045s")) = some (9/200) := by
    simp +decide [trimSuffixS, trimSpace, parseDecimal, natOfDigits, digitVal]
    norm_num
  refine ⟨hp, ?_⟩
  have h := measureRequest_cdn_decomposition 100000000 200 false "HTTP/2.0" "0.045s"
    (9/200) (by decide) hp
  rw [h.2.1]
  have ht : ttfbMsOf 100000000 = 100 := by
    rw [ttfbMsOf, show Int.tdiv 100000000 1000 = 100000 from by decide]
    norm_num
  rw [ht]
  norm_num

/-- C3 counterexample: a successful probe without the origin header produces a
`RequestResult` equal, field for field, to the one produced when the header
reports exactly zero seconds — there is no "no origin data" marker, so the
aggregator cannot distinguish the two. -/
theorem requestResult_absent_vs_zero_counterexample :
    measureRequest (.success 100000000 200 false "HTTP/1.1" "") =
      measureRequest (.success 100000000 200 false "HTTP/1.1" "0") ∧
    (measureRequest (.success 100000000 200 false "HTTP/1.1" "")).xResponseTime = 0 := by
  constructor
  · simp +decide [measureRequest, extractXResponseTime, trimSuffixS, trimSpace,
      parseDecimal, natOfDigits, digitVal]
  · decide

/-- C3 amended: a sample whose origin header is absent or unparseable keeps
XResponseTime at zero and gets CDNLatency equal to the full TTFB, and is
identical to the sample produced by a header reporting exactly zero — the
sample itself carries no absence marker. -/
theorem measureRequest_absent_origin_amended (ttfbNs statusCode : ℤ) (reused : Bool)
    (proto hdr : String)
    (habs : hdr = "" ∨ parseDecimal (trimSpace (trimSuffixS hdr)) = none) :
    (measureRequest (.success ttfbNs statusCode reused proto hdr)).xResponseTime = 0 ∧
    (measureRequest (.success ttfbNs statusCode reused proto hdr)).cdnLatency =
      ttfbMsOf ttfbNs ∧
    measureRequest (.success ttfbNs statusCode reused proto hdr) =
      measureRequest (.success ttfbNs statusCode reused proto "0") := by
  have hx : extractXResponseTime hdr = 0 := by
    unfold extractXResponseTime
    rcases habs with h | h
    · rw [if_pos (by simp [h])]
    · by_cases he : (hdr == "") = true
      · rw [if_pos he]
      · rw [if_neg he, h]
  have hx0 : extractXResponseTime "0" = 0 := by
    simp +decide [extractXResponseTime, trimSuffixS, trimSpace, parseDecimal,
      natOfDigits, digitVal]
  simp only [measureRequest]
  rw [hx, hx0]
  exact ⟨rfl, by rw [sub_zero], rfl⟩

/-- Witness for C3's amended theorem with the unparseable header "abc". -/
theorem measureRequest_absent_origin_amended_witness :
    parseDecimal (trimSpace (trimSuffixS "abc")) = none ∧
    (measureRequest (.success 100000000 200 false "HTTP/1.1" "abc")).cdnLatency =
      ttfbMsOf 100000000 := by
  have h := measureRequest_absent_origin_amended 100000000 200 false "HTTP/1.1" "abc"
    (Or.inr (by decide))
  exact ⟨by decide, h.2.1⟩

/-- C8 counterexample: the malformed header "abc" does not yield an absent
origin time distinct from zero — the sample records XResponseTime = 0 and is
identical to the sample for the literal zero header "0s". -/
theorem header_malformed_not_absent_counterexample :
    (measureRequest (.success 50000000 200 false "HTTP/1.1" "abc")).xResponseTime = 0 ∧
    measureRequest (.success 50000000 200 false "HTTP/1.1" "abc") =
      measureRequest (.success 50000000 200 false "HTTP/1.1" "0s") := by
  constructor
  · decide
  · simp +decide [measureRequest, extractXResponseTime, trimSuffixS, trimSpace,
      parseDecimal, natOfDigits, digitVal]

/-- C8 amended: the header value "0.045s" parses (suffix stripped, seconds
converted to milliseconds) to an origin time of 45.0 ms; a malformed value
such as "abc" leaves the origin-time field at its zero default — conflated
with a genuine zero — and CDNLatency then equals the full TTFB. -/
theorem header_parse_amended (ttfbNs statusCode : ℤ) (reused : Bool) (proto : String) :
    (measureRequest (.success ttfbNs statusCode reused proto "0.045s")).xResponseTime = 45 ∧
    (measureRequest (.success ttfbNs statusCode reused proto "abc")).xResponseTime = 0 ∧
    (measureRequest (.success ttfbNs statusCode reused proto "abc")).cdnLatency =
      ttfbMsOf ttfbNs := by
  have h45 : extractXResponseTime "0.045s" = 45 := by
    simp +decide [extractXResponseTime, trimSuffixS, trimSpace, parseDecimal,
      natOfDigits, digitVal]
    norm_num
  have h0 : extractXResponseTime "abc" = 0 := by decide
  simp only [measureRequest]
  rw [h45, h0]
  exact ⟨rfl, rfl, by rw [sub_zero]⟩

theorem roundStep_length (tasks : List RequestTask) (measure : ℕ → RequestResult) :
    ∀ (order : List ℕ) (acc : List EndpointResult),
      (order.foldl (roundStep tasks measure) acc).length = acc.length := by
  intro order
  induction order with
  | nil => intro acc; rfl
  | cons i rest ih =>
      intro acc
      rw [List.foldl_cons, ih]
      unfold roundStep
      cases h : tasks[i]? with
      | none => rfl
      | some t => simp [List.length_set]

theorem runParallelRound_length (tasks : List RequestTask) (measure : ℕ → RequestResult)
    (order : List ℕ) :
    (runParallelRound tasks measure order).length = tasks.length := by
  unfold runParallelRound
  rw [roundStep_length]
  exact List.length_replicate _ _

/-- C7: request-construction failures and round-trip failures both produce a
sample whose timing fields are all zero and whose error description is
non-empty, and a round always returns one slot per task regardless of the
goroutine completion order — a failed probe is data, it does not abort or
shrink the round. -/
theorem measureRequest_failure_is_data (msg : String) (tasks : List RequestTask)
    (measure : ℕ → RequestResult) (order : List ℕ) :
    (measureRequest (.newRequestError msg)).ttfb = 0 ∧
    (measureRequest (.newRequestError msg)).xResponseTime = 0 ∧
    (measureRequest (.newRequestError msg)).cdnLatency = 0 ∧
    (measureRequest (.newRequestError msg)).statusCode = 0 ∧
    (measureRequest (.newRequestError msg)).error ≠ "" ∧
    (measureRequest (.doError msg)).ttfb = 0 ∧
    (measureRequest (.doError msg)).xResponseTime = 0 ∧
    (measureRequest (.doError msg)).cdnLatency = 0 ∧
    (measureRequest (.doError msg)).statusCode = 0 ∧
    (measureRequest (.doError msg)).error ≠ "" ∧
    (runParallelRound tasks measure order).length = tasks.length := by
  refine ⟨rfl, rfl, rfl, rfl, ?_, rfl, rfl, rfl, rfl, ?_,
    runParallelRound_length tasks measure order⟩
  · intro h
    simp only [measureRequest] at h
    have hlen := congrArg String.length h
    rw [String.length_append] at hlen
    have hpre : ("创建请求失败: " : String).length = 8 := by decide
    rw [hpre] at hlen
    have hz : ("" : String).length = 0 := by decide
    rw [hz] at hlen
    omega
  · intro h
    simp only [measureRequest] at h
    have hlen := congrArg String.length h
    rw [String.length_append] at hlen
    have hpre : ("请求失败: " : String).length = 6 := by decide
    rw [hpre] at hlen
    have hz : ("" : String).length = 0 := by decide
    rw [hz] at hlen
    omega

/-- C9 counterexample: the unsupported protocol selector "SPDY" parses to
HTTP1 rather than surfacing an error, and client construction for the
unparseable address "999.999.999.999" succeeds — no construction error is
surfaced and the endpoint is not excluded. -/
theorem construction_never_errors_counterexample :
    parseProtocol "SPDY" = HTTP1 ∧
    buildClient (parseProtocol "SPDY") "999.999.999.999" 30000000000 =
      some (createHTTP1Client "999.999.999.999" 30000000000) := by
  constructor
  · decide
  · decide

theorem parseProtocol_cases (s : String) :
    parseProtocol s = HTTP1 ∨ parseProtocol s = HTTP2 ∨ parseProtocol s = HTTP3 := by
  unfold parseProtocol
  split
  · exact Or.inr (Or.inr rfl)
  · split
    · exact Or.inr (Or.inl rfl)
    · exact Or.inl rfl

/-- C9 amended: for every configured endpoint (protocol obtained through
`parseProtocol`), handle construction always succeeds — an unparseable
override IP or an unknown selector never produces a construction error and
never excludes the endpoint; every constructed client dials the forced IP
for any requested address (no fallback to DNS resolution of the virtual
hostname) and keeps TLS certificate verification enabled. Dial-time failure
for a garbage IP surfaces later, as a per-request error. -/
theorem client_construction_total_amended (s ip : String) (t : ℤ) (addr : String) :
    (buildClient (parseProtocol s) ip t).isSome = true ∧
    (buildClient (parseProtocol s) ip t).map (fun c => dialAddr c addr) =
      some (joinHostPort ip (splitPortOr443 addr)) ∧
    (buildClient (parseProtocol s) ip t).map (fun c => c.insecureSkipVerify) =
      some false := by
  rcases parseProtocol_cases s with h | h | h <;>
    rw [h] <;>
    refine ⟨rfl, rfl, rfl⟩

theorem roundStep_eq (tasks : List RequestTask) (measure : ℕ → RequestResult)
    (acc : List EndpointResult) (idx : ℕ) :
    roundStep tasks measure acc idx =
      if idx < tasks.length then acc.set idx (roundWrite tasks measure idx)
      else acc := by
  unfold roundStep
  cases h : tasks[idx]? with
  | none =>
      rw [if_neg]
      have := List.getElem?_eq_none_iff.mp h
      omega
  | some t =>
      obtain ⟨hlt, -⟩ := List.getElem?_eq_some.mp h
      rw [if_pos hlt]
      unfold roundWrite
      rw [h]

theorem roundFold_not_mem (tasks : List RequestTask) (measure : ℕ → RequestResult) :
    ∀ (order : List ℕ) (acc : List EndpointResult) (i : ℕ), i ∉ order →
      (order.foldl (roundStep tasks measure) acc)[i]? = acc[i]? := by
  intro order
  induction order with
  | nil => intro acc i _; rfl
  | cons j rest ih =>
      intro acc i hi
      have hij : i ≠ j := fun h => hi (h ▸ List.mem_cons_self j rest)
      have hrest : i ∉ rest := fun h => hi (List.mem_cons_of_mem j h)
      rw [List.foldl_cons, ih _ i hrest, roundStep_eq]
      split
      · rw [List.getElem?_set]
        rw [if_neg (fun h => hij h.symm)]
      · rfl

theorem roundFold_mem (tasks : List RequestTask) (measure : ℕ → RequestResult) :
    ∀ (order : List ℕ) (acc : List EndpointResult) (i : ℕ), i ∈ order →
      i < tasks.length → acc.length = tasks.length →
      (order.foldl (roundStep tasks measure) acc)[i]? =
        some (roundWrite tasks measure i) := by
  intro order
  induction order with
  | nil => intro acc i hi; cases hi
  | cons j rest ih =>
      intro acc i hi hlt hlen
      rw [List.foldl_cons]
      by_cases hmem : i ∈ rest
      · refine ih _ i hmem hlt ?_
        rw [roundStep_eq]
        split
        · rw [List.length_set]; exact hlen
        · exact hlen
      · have hij : i = j := by
          rcases List.mem_cons.mp hi with h | h
          · exact h
          · exact absurd h hmem
        subst hij
        rw [roundFold_not_mem tasks measure rest _ i hmem, roundStep_eq, if_pos hlt,
          List.getElem?_set, if_pos rfl, if_pos (by omega)]

theorem runParallelRound_getElem (tasks : List RequestTask) (measure : ℕ → RequestResult)
    (order : List ℕ) (hcov : ∀ i, i < tasks.length → i ∈ order)
    (i : ℕ) (hi : i < tasks.length) :
    (runParallelRound tasks measure order)[i]? = some (roundWrite tasks measure i) := by
  unfold runParallelRound
  exact roundFold_mem tasks measure order _ i (hcov i hi) hi (List.length_replicate _ _)

/-- For any completion order that covers every slot, the round's result slice
is slot i holds goroutine i's write, independent of the order. -/
theorem runParallelRound_eq (tasks : List RequestTask) (measure : ℕ → RequestResult)
    (order : List ℕ) (hcov : ∀ i, i < tasks.length → i ∈ order) :
    runParallelRound tasks measure order =
      (List.range tasks.length).map (roundWrite tasks measure) := by
  apply List.ext_getElem?
  intro i
  by_cases hi : i < tasks.length
  · rw [runParallelRound_getElem tasks measure order hcov i hi, List.getElem?_map,
      List.getElem?_range hi]
    rfl
  · rw [List.getElem?_eq_none, List.getElem?_eq_none]
    · rw [List.length_map, List.length_range]; omega
    · rw [runParallelRound_length]; omega

theorem roundWrite_mkTasks (clients : List Endpoint) (url domain : String) (rd : ℤ)
    (measure : ℕ → RequestResult) (i : ℕ) (hi : i < clients.length) :
    roundWrite (mkTasks clients url domain rd) measure i =
      { endpoint := clients.get ⟨i, hi⟩,
        result := { measure i with index := rd } } := by
  unfold roundWrite mkTasks
  rw [List.getElem?_map, List.getElem?_eq_getElem hi]
  rfl

theorem range_filter_beq (n j : ℕ) (hj : j < n) :
    (List.range n).filter (fun i => i == j) = [j] := by
  induction n with
  | zero => omega
  | succ m ih =>
      rw [List.range_succ, List.filter_append]
      by_cases hjm : j < m
      · rw [ih hjm]
        have hlast : List.filter (fun i => i == j) [m] = [] := by
          have : m ≠ j := by omega
          simp [this]
        rw [hlast, List.append_nil]
      · have hjm2 : j = m := by omega
        subst hjm2
        have hhead : List.filter (fun i => i == j) (List.range j) = [] := by
          rw [List.filter_eq_nil_iff]
          intro a ha
          have : a < j := List.mem_range.mp ha
          simp
          omega
        rw [hhead]
        simp

theorem key_filter_round (clients : List Endpoint) (url domain : String) (rd : ℤ)
    (measure : ℕ → RequestResult) (hnodup : (clients.map keyOf).Nodup)
    (j : ℕ) (hj : j < clients.length) :
    ((List.range clients.length).map
        (roundWrite (mkTasks clients url domain rd) measure)).filter
      (fun er => keyOf er.endpoint == keyOf (clients.get ⟨j, hj⟩)) =
    [{ endpoint := clients.get ⟨j, hj⟩,
       result := { measure j with index := rd } }] := by
  rw [List.filter_map]
  have hcong : ∀ i ∈ List.range clients.length,
      ((fun er => keyOf er.endpoint == keyOf (clients.get ⟨j, hj⟩)) ∘
        roundWrite (mkTasks clients url domain rd) measure) i = (i == j) := by
    intro i hmem
    have hi : i < clients.length := List.mem_range.mp hmem
    simp only [Function.comp, roundWrite_mkTasks clients url domain rd measure i hi]
    by_cases hij : i = j
    · subst hij
      simp
    · have hkey : keyOf (clients.get ⟨i, hi⟩) ≠ keyOf (clients.get ⟨j, hj⟩) := by
        intro he
        have h1 : (clients.map keyOf).get ⟨i, by simpa using hi⟩ =
            (clients.map keyOf).get ⟨j, by simpa using hj⟩ := by
          simpa [List.get_map] using he
        have h2 := (List.Nodup.get_inj_iff hnodup).mp h1
        exact hij (by simpa using congrArg Fin.val h2)
      simp only [List.get_eq_getElem] at hkey
      simp [hkey, hij]
  rw [List.filter_congr hcong, range_filter_beq clients.length j hj,
    List.map_cons, List.map_nil, roundWrite_mkTasks clients url domain rd measure j hj]

theorem flatten_map_singleton {α β : Type} (l : List α) (g : α → β) :
    (l.map (fun x => [g x])).flatten = l.map g := by
  induction l with
  | nil => rfl
  | cons a t ih => simp only [List.map_cons, List.flatten_cons, ih, List.singleton_append]

/-- C6: for every endpoint (distinct endpoint keys, as each endpoint owns one
sample sequence) and any covering goroutine completion orders, the campaign
stores at 0-based position i of that endpoint's sequence the sample of round
i+1, carrying round index i+1 — sample order equals round order regardless of
the concurrent completion races. -/
theorem campaign_round_ordering (clients : List Endpoint) (url domain : String)
    (nRounds : ℕ) (measure : ℕ → ℕ → RequestResult) (orders : ℕ → List ℕ)
    (hnodup : (clients.map keyOf).Nodup)
    (hcov : ∀ r i, i < clients.length → i ∈ orders r)
    (j : ℕ) (hj : j < clients.length) :
    (campaign clients url domain nRounds measure orders
        (keyOf (clients.get ⟨j, hj⟩))).length = nRounds ∧
    ∀ i, i < nRounds →
      ((campaign clients url domain nRounds measure orders
          (keyOf (clients.get ⟨j, hj⟩)))[i]?).map (fun r => r.index) =
        some ((i : ℤ) + 1) := by
  have hlen : ∀ rd : ℤ, (mkTasks clients url domain rd).length = clients.length := by
    intro rd
    unfold mkTasks
    exact List.length_map _ _
  have hround : ∀ r : ℕ,
      ((runParallelRound (mkTasks clients url domain ((r : ℤ) + 1))
          (measure (r + 1)) (orders (r + 1))).filter
        (fun er => keyOf er.endpoint == keyOf (clients.get ⟨j, hj⟩))).map
          (fun er => er.result) =
      [{ measure (r + 1) j with index := (r : ℤ) + 1 }] := by
    intro r
    rw [runParallelRound_eq _ _ _ (by rw [hlen]; exact hcov (r + 1)), hlen,
      key_filter_round clients url domain ((r : ℤ) + 1) (measure (r + 1)) hnodup j hj]
    rfl
  have hcamp : campaign clients url domain nRounds measure orders
      (keyOf (clients.get ⟨j, hj⟩)) =
      (List.range nRounds).map (fun r => { measure (r + 1) j with index := (r : ℤ) + 1 }) := by
    unfold campaign
    rw [List.map_congr_left (fun r _ => hround r), flatten_map_singleton]
  constructor
  · rw [hcamp, List.length_map, List.length_range]
  · intro i hi
    rw [hcamp, List.getElem?_map, List.getElem?_range hi]
    rfl

/-- Witness for C6: two endpoints, two rounds, goroutines finishing in
reversed order; endpoint A's sequence is [round 1, round 2]. -/
theorem campaign_round_ordering_witness :
    (campaign [{ ip := "1.1.1.1", protocol := 0, name := "A" },
               { ip := "2.2.2.2", protocol := 1, name := "B" }] "u" "d" 2
      (fun _ _ => defaultRequestResult) (fun _ => [1, 0])
      (keyOf (([{ ip := "1.1.1.1", protocol := 0, name := "A" },
                { ip := "2.2.2.2", protocol := 1, name := "B" }] : List Endpoint).get
        ⟨0, by decide⟩))).length = 2 ∧
    ((campaign [{ ip := "1.1.1.1", protocol := 0, name := "A" },
                { ip := "2.2.2.2", protocol := 1, name := "B" }] "u" "d" 2
      (fun _ _ => defaultRequestResult) (fun _ => [1, 0])
      (keyOf (([{ ip := "1.1.1.1", protocol := 0, name := "A" },
                { ip := "2.2.2.2", protocol := 1, name := "B" }] : List Endpoint).get
        ⟨0, by decide⟩)))[1]?).map (fun r => r.index) = some 2 := by
  have h := campaign_round_ordering
    [{ ip := "1.1.1.1", protocol := 0, name := "A" },
     { ip := "2.2.2.2", protocol := 1, name := "B" }] "u" "d" 2
    (fun _ _ => defaultRequestResult) (fun _ => [1, 0])
    (by decide) (by intro r; change ∀ i, i < 2 → i ∈ [1, 0]; decide) 0 (by decide)
  refine ⟨h.1, ?_⟩
  have h2 := h.2 1 (by norm_num)
  simpa using h2

/-- C10: `percentile` sorts a freshly allocated copy of its input slice, so
the caller's slice is unchanged by the call and the returned value is the same
as the plain `percentile` function computes — aggregation never reorders or
mutates the sample-derived value sequence. -/
theorem percentile_preserves_input (h : Heap) (a fresh : ℕ) (p : ℚ)
    (hfa : fresh ≠ a) :
    ((percentileProg h a fresh p).2) a = h a ∧
    (percentileProg h a fresh p).1 = percentile (h a) p := by
  unfold percentileProg percentile
  by_cases hlen : (h a).length = 0
  · rw [if_pos hlen, if_pos hlen]
    exact ⟨rfl, rfl⟩
  · rw [if_neg hlen, if_neg hlen]
    constructor
    · show heapUpdate (heapUpdate h fresh (h a)) fresh _ a = h a
      unfold heapUpdate
      rw [if_neg (Ne.symm hfa), if_neg (Ne.symm hfa)]
    · show ((heapUpdate (heapUpdate h fresh (h a)) fresh
          (List.insertionSort (· ≤ ·) (heapUpdate h fresh (h a) fresh)) fresh)[_]?).getD 0 = _
      unfold heapUpdate
      rw [if_pos rfl, if_pos rfl]

/-- Witness for C10 on a two-slice store holding [3, 1, 2] at address 0. -/
theorem percentile_preserves_input_witness :
    ((percentileProg (fun i => if i = 0 then ([3, 1, 2] : List ℚ) else []) 0 1 (1/2)).2) 0
        = [3, 1, 2] ∧
    (percentileProg (fun i => if i = 0 then ([3, 1, 2] : List ℚ) else []) 0 1 (1/2)).1
        = percentile [3, 1, 2] (1/2) := by
  have h := percentile_preserves_input
    (fun i => if i = 0 then ([3, 1, 2] : List ℚ) else []) 0 1 (1/2) (by decide)
  exact ⟨h.1, h.2⟩
